import Mathlib

/-!
Shallow embedding of the qubovert core (`_problem_parentclass.py`,
`_qubo.py`, `problems/np/covering/_vertex_cover.py`) and proofs about it.

Python values are modelled explicitly: solution inputs are either a
positional sequence or an integer-keyed mapping; dictionary access that
would raise `KeyError`/`IndexError` is modelled with `Option`.
-/

set_option autoImplicit false

universe u v

/-- A solver-output solution, as accepted by `convert_solution`: either a
positional sequence (list/tuple) or a mapping from integer label to value. -/
inductive PySol where
  | seq (xs : List Int)
  | dmap (m : List (Nat × Int))
deriving DecidableEq

/-- `solution[i]`: positional indexing for a sequence, key lookup for a
mapping; `none` models the `IndexError`/`KeyError` raised on a miss. -/
def PySol.get : PySol → Nat → Option Int
  | .seq xs, i => xs.get? i
  | .dmap m, i => m.lookup i

/-- `solution.items()` after the `dict(enumerate(solution))` normalization
done by `VertexCover.convert_solution`. -/
def PySol.items : PySol → List (Nat × Int)
  | .seq xs => xs.enum
  | .dmap m => m

/-- Apply a function to every value of a solution, keeping its shape. -/
def PySol.mapVals (f : Int → Int) : PySol → PySol
  | .seq xs => .seq (xs.map f)
  | .dmap m => .dmap (m.map fun p => (p.1, f p.2))

/-- The substitution taking a QUBO-valued solution to the corresponding
Ising-valued solution: bit 0 becomes spin -1, everything else is kept. -/
def isingOfQuboVal (x : Int) : Int := if x = 0 then -1 else x

/-- A candidate dictionary key as seen by `QUBO._check_key_valid`: either a
tuple of (hashable) labels or some non-tuple object. -/
inductive PyKey (α : Type u) where
  | tup (xs : List α)
  | nontuple
deriving DecidableEq

/-- `QUBO._check_key_valid` (src/qubovert/_qubo.py): valid iff the key is a
tuple and `len(set(key)) <= 2`, i.e. at most 2 distinct elements. -/
def check_key_valid {α : Type u} [DecidableEq α] : PyKey α → Bool
  | .tup xs => decide (xs.dedup.length ≤ 2)
  | .nontuple => false

/-- Modelled from the spec: the insertion path of the QUBO container
(`QUBOMatrix.__setitem__`, inherited machinery not present under src/)
"fails immediately with a key-validation error; no partial mutation
occurs".  It validates the key with `check_key_valid` (which is from the
source) before performing the actual write `doInsert`; on failure it
reports a `KeyError` and returns the container unchanged. -/
def quboSetItem {α : Type u} {M : Type v} [DecidableEq α]
    (doInsert : M → PyKey α → Int → M) (m : M) (k : PyKey α) (v : Int) :
    Option String × M :=
  if check_key_valid k then (none, doInsert m k v) else (some "KeyError", m)

/-- A Python comprehension over `l` whose body may raise: evaluate `f` on
each element in order; the first `none` (a raised error) aborts the whole
comprehension with no partial result. -/
def tryMapAll {A : Type u} {B : Type v} (f : A → Option B) :
    List A → Option (List B)
  | [] => some []
  | a :: l =>
    match f a with
    | none => none
    | some b => (tryMapAll f l).map fun bs => b :: bs

/-- `QUBO.convert_solution` (src/qubovert/_qubo.py): builds
`{reverse_mapping[i]: 1 if solution[i] == 1 else 0 for i in range(n)}`,
where `n` is `num_binary_variables` and `rm` is the instance's
`_reverse_mapping`.  A missing access raises, modelled by `none`. -/
def qubo_convert_solution {β : Type u} (rm : Nat → β) (n : Nat) (sol : PySol) :
    Option (List (β × Int)) :=
  tryMapAll (fun (i : Nat) =>
    (sol.get i).map fun x => (rm i, if x = 1 then (1 : Int) else 0))
    (List.range n)

/-- A `VertexCover` problem instance: the captured edge set
(`self._edges`), modelled as a list of two-element tuples. -/
structure VertexCover (α : Type u) where
  edges : List (α × α)

/-- `self._vertices = {y for x in edges for y in x}`: the set of endpoints,
in first-seen order. -/
def VertexCover.vertices {α : Type u} [DecidableEq α] (g : VertexCover α) :
    List α :=
  (g.edges.flatMap fun e => [e.1, e.2]).dedup

/-- `self._index_to_vertex[i]`; `none` models the `KeyError` on an index
that is out of range. -/
def VertexCover.index_to_vertex {α : Type u} [DecidableEq α]
    (g : VertexCover α) (i : Nat) : Option α :=
  g.vertices.get? i

/-- `self._vertex_to_index[v]` from `{x: i for i, x in enumerate(...)}`. -/
def VertexCover.vertex_to_index {α : Type u} [DecidableEq α]
    (g : VertexCover α) (v : α) : Option Nat :=
  (g.vertices.enum.map fun p => (p.2, p.1)).lookup v

/-- `VertexCover.num_binary_variables`: `self._N = len(self._vertices)`. -/
def VertexCover.num_binary_variables {α : Type u} [DecidableEq α]
    (g : VertexCover α) : Nat :=
  g.vertices.length

/-- `VertexCover.convert_solution`: normalizes a sequence with
`dict(enumerate(solution))`, then returns
`{index_to_vertex[i] for i, x in solution.items() if x == 1}`.
`none` models a `KeyError` from `_index_to_vertex`. -/
def VertexCover.convert_solution {α : Type u} [DecidableEq α]
    (g : VertexCover α) (sol : PySol) : Option (Finset α) :=
  (tryMapAll (fun (p : Nat × Int) => g.index_to_vertex p.1)
    (sol.items.filter fun p => p.2 = 1)).map List.toFinset

/-- Input to `VertexCover.is_solution_valid`: either an already-converted
set of vertices, or a raw QUBO/Ising solver output. -/
inductive VCSolInput (α : Type u) where
  | vset (s : Finset α)
  | assign (sol : PySol)

/-- `VertexCover.is_solution_valid`: converts a non-set input through
`convert_solution`, then checks
`all(i in solution or j in solution for i, j in self._edges)`. -/
def VertexCover.is_solution_valid {α : Type u} [DecidableEq α]
    (g : VertexCover α) : VCSolInput α → Option Bool
  | .vset s => some (g.edges.all fun e => decide (e.1 ∈ s) || decide (e.2 ∈ s))
  | .assign sol => (g.convert_solution sol).map fun s =>
      g.edges.all fun e => decide (e.1 ∈ s) || decide (e.2 ∈ s)

/-! ### Problem base class (`_problem_parentclass.py`) -/

/-- Outcome of a (fuel-bounded) Python method call: a returned value, an
explicit `NotImplementedError`, or exhaustion of the recursion bound
(Python: the interpreter's recursion limit, i.e. `RecursionError`). -/
inductive CallResult (γ : Type u) where
  | ok (val : γ)
  | notImplemented
  | outOfFuel
deriving DecidableEq

/-- A concrete `Problem` subclass's method table for the duality pair: each
of `to_qubo` / `to_ising` is either overridden (with the value the override
returns) or absent, in which case the `Problem` base body runs. -/
structure ProblemOverrides (Q I : Type u) where
  quboOverride : Option Q
  isingOverride : Option I

mutual

/-- Dynamic dispatch of `problem.to_qubo()`: an override returns directly;
otherwise the base body `Problem.to_qubo` runs, which calls
`ising_to_qubo(*self.to_ising(...))`.  `i2q` and `q2i` stand for the
external conversion utilities `ising_to_qubo` / `qubo_to_ising`; `fuel`
bounds the call depth. -/
def problem_to_qubo {Q I : Type u} (i2q : I → Q) (q2i : Q → I)
    (p : ProblemOverrides Q I) : Nat → CallResult Q
  | 0 => .outOfFuel
  | fuel + 1 =>
    match p.quboOverride with
    | some q => .ok q
    | none =>
      match problem_to_ising i2q q2i p fuel with
      | .ok h => .ok (i2q h)
      | .notImplemented => .notImplemented
      | .outOfFuel => .outOfFuel

/-- Dynamic dispatch of `problem.to_ising()`: an override returns directly;
otherwise the base body `Problem.to_ising` runs, which calls
`qubo_to_ising(*self.to_qubo(...))`. -/
def problem_to_ising {Q I : Type u} (i2q : I → Q) (q2i : Q → I)
    (p : ProblemOverrides Q I) : Nat → CallResult I
  | 0 => .outOfFuel
  | fuel + 1 =>
    match p.isingOverride with
    | some h => .ok h
    | none =>
      match problem_to_qubo i2q q2i p fuel with
      | .ok q => .ok (q2i q)
      | .notImplemented => .notImplemented
      | .outOfFuel => .outOfFuel

end

/-- A `Problem` instance as far as `__eq__`/`__str__` are concerned: its
concrete class (`τ` is the universe of classes) and the constructor
arguments captured by `Problem.__new__` (`self._problem_args`,
`self._problem_kwargs`). -/
structure PInst (τ : Type u) (α : Type v) where
  ptype : τ
  pargs : List α
  pkwargs : List (String × α)

/-- Python `dict` equality on keyword-argument dictionaries: order
independent, equal iff the key sets coincide and values match (keyword
dictionaries have no duplicate keys). -/
def pyDictBEq {α : Type u} [DecidableEq α]
    (m1 m2 : List (String × α)) : Bool :=
  (m1.all fun kv => m2.lookup kv.1 = some kv.2) &&
    (m2.all fun kv => m1.lookup kv.1 = some kv.2)

/-- `Problem.__eq__`: `isinstance(other, type(self)) and self._problem_args
== other._problem_args and self._problem_kwargs == other._problem_kwargs`.
`sub c d` models `issubclass(c, d)` (so `isinstance(other, type(self))`
is `sub other.ptype self.ptype`). -/
def problem_eq {τ : Type u} {α : Type v} [DecidableEq α] (sub : τ → τ → Bool)
    (self other : PInst τ α) : Bool :=
  sub other.ptype self.ptype && self.pargs == other.pargs &&
    pyDictBEq self.pkwargs other.pkwargs

/-- `Problem.convert_solution` default body: `return solution`. -/
def problem_convert_solution_default {σ : Type u} (solution : σ) : σ :=
  solution

/-- `Problem.is_solution_valid` default body: `return True`. -/
def problem_is_solution_valid_default {σ : Type u} (_solution : σ) : Bool :=
  true

/-- Result of `Problem.solve_bruteforce`: a single converted solution, or a
list of them when `all_solutions` is true. -/
inductive SolveResult (τ : Type u) where
  | single (t : τ)
  | allOf (l : List τ)
deriving DecidableEq

/-- `Problem.solve_bruteforce`: pops `all_solutions` (default `False`),
forms `qubo = self.to_qubo(...)`, calls the external oracle
`solve_qubo_bruteforce(*qubo, all_solutions=all_solutions)` (modelled by
`oracleBest` / `oracleAll`, returning `(objective, solution(s))`), and maps
the result(s) through `convert` (the instance's `convert_solution`). -/
def problem_solve_bruteforce {Q σ τ : Type u} (qubo : Q)
    (oracleBest : Q → Int × σ) (oracleAll : Q → Int × List σ)
    (convert : σ → τ) (all_solutions : Bool) : SolveResult τ :=
  if all_solutions then .allOf ((oracleAll qubo).2.map convert)
  else .single (convert (oracleBest qubo).2)

/-! ### A small object store, for the aliasing claims about `E` / `V`

Python sets are mutable heap objects.  `PyStore` is a heap holding the
edge-set objects and vertex-set objects of a session; a reference is an
index into the corresponding list.  `VertexCover.__init__` stores
`edges.copy()` and a freshly built vertex set; the accessors `E` and `V`
return `self._edges.copy()` / `self._vertices.copy()`, i.e. newly
allocated objects. -/

/-- The heap: all edge-set objects and all vertex-set objects. -/
structure PyStore (α : Type u) where
  edgeSets : List (List (α × α))
  vertSets : List (List α)

/-- Read the edge-set object behind reference `r`. -/
def PyStore.readE {α : Type u} (st : PyStore α) (r : Nat) : List (α × α) :=
  (st.edgeSets.get? r).getD []

/-- Read the vertex-set object behind reference `r`. -/
def PyStore.readV {α : Type u} (st : PyStore α) (r : Nat) : List α :=
  (st.vertSets.get? r).getD []

/-- Overwrite the edge-set object behind `r` (an in-place mutation). -/
def PyStore.writeE {α : Type u} (st : PyStore α) (r : Nat)
    (w : List (α × α)) : PyStore α :=
  ⟨st.edgeSets.set r w, st.vertSets⟩

/-- Overwrite the vertex-set object behind `r` (an in-place mutation). -/
def PyStore.writeV {α : Type u} (st : PyStore α) (r : Nat) (w : List α) :
    PyStore α :=
  ⟨st.edgeSets, st.vertSets.set r w⟩

/-- Allocate a fresh edge-set object; returns its reference. -/
def PyStore.allocE {α : Type u} (st : PyStore α) (w : List (α × α)) :
    Nat × PyStore α :=
  (st.edgeSets.length, ⟨st.edgeSets ++ [w], st.vertSets⟩)

/-- Allocate a fresh vertex-set object; returns its reference. -/
def PyStore.allocV {α : Type u} (st : PyStore α) (w : List α) :
    Nat × PyStore α :=
  (st.vertSets.length, ⟨st.edgeSets, st.vertSets ++ [w]⟩)

/-- A constructed `VertexCover` object: references to its stored edge set
and vertex set, plus the derived data computed once in `__init__`
(`_vertex_to_index`, `_index_to_vertex`, `_N`, `_n`) which are plain
values. -/
structure VCObj (α : Type u) where
  edgesRef : Nat
  verticesRef : Nat
  vertexToIndex : List (α × Nat)
  indexToVertex : List (Nat × α)
  bigN : Nat
  littleN : Nat

/-- `VertexCover.__init__(edges)` against the store: stores
`self._edges = edges.copy()` (fresh object), builds `self._vertices`
(fresh object), and computes the derived maps and counts. -/
def vcInit {α : Type u} [DecidableEq α] (st : PyStore α)
    (edges : List (α × α)) : VCObj α × PyStore α :=
  let e := st.allocE edges
  let verts := (edges.flatMap fun p => [p.1, p.2]).dedup
  let v := e.2.allocV verts
  (⟨e.1, v.1, verts.enum.map fun p => (p.2, p.1), verts.enum,
    verts.length, edges.length⟩, v.2)

/-- The object returned by `vcInit` (`self`). -/
def vcInitObj {α : Type u} [DecidableEq α] (st : PyStore α)
    (edges : List (α × α)) : VCObj α :=
  (vcInit st edges).1

/-- The store after `vcInit`. -/
def vcInitStore {α : Type u} [DecidableEq α] (st : PyStore α)
    (edges : List (α × α)) : PyStore α :=
  (vcInit st edges).2

/-- The accessor `VertexCover.E`: `return self._edges.copy()` — a freshly
allocated copy of the stored edge set. -/
def vcE {α : Type u} (st : PyStore α) (o : VCObj α) : Nat × PyStore α :=
  st.allocE (st.readE o.edgesRef)

/-- The accessor `VertexCover.V`: `return self._vertices.copy()` — a
freshly allocated copy of the stored vertex set. -/
def vcV {α : Type u} (st : PyStore α) (o : VCObj α) : Nat × PyStore α :=
  st.allocV (st.readV o.verticesRef)

/-- `VertexCover.is_solution_valid` on an already-converted cover, reading
the instance's stored edge set from the store. -/
def vcIsValidInStore {α : Type u} [DecidableEq α] (st : PyStore α)
    (o : VCObj α) (cover : List α) : Bool :=
  (st.readE o.edgesRef).all fun e => e.1 ∈ cover || e.2 ∈ cover

/-! ### `Problem.__str__` and its `eval` round trip

The argument universe is modelled with integers and strings (Python
`str(int)` and `"'%s'" % s`); `pyEvalCall` is the fragment of Python's
`eval` that reads back a text of the shape `Name(arg, ..., key=val, ...)`
built from such literals — `none` models a `SyntaxError`. -/

/-- A constructor argument value: an integer or a string. -/
inductive PyVal where
  | int (n : Int)
  | str (s : String)
deriving DecidableEq

/-- The single-quote character. -/
def squoteChar : Char := Char.ofNat 39

/-- The single-quote character as a string. -/
def squote : String := String.singleton squoteChar

/-- `val = str(a) if not isinstance(a, str) else "'%s'" % a` from
`Problem.__str__`: integers print in decimal, strings are wrapped in
single quotes with **no escaping**. -/
def pyArgText : PyVal → String
  | .int n => toString n
  | .str s => squote ++ s ++ squote

/-- `Problem.__str__`: `ClassName(...)` built from the captured
constructor arguments; positional arguments first, then `key=value`
pairs, comma separated (the trailing `", "` is dropped with `s[:-2]`). -/
def problem_str (name : String) (args : List PyVal)
    (kwargs : List (String × PyVal)) : String :=
  let s := name ++ "("
  if args = [] ∧ kwargs = [] then s ++ ")"
  else
    let s := args.foldl (fun acc a => acc ++ pyArgText a ++ ", ") s
    let s := kwargs.foldl
      (fun acc kv => acc ++ kv.1 ++ "=" ++ pyArgText kv.2 ++ ", ") s
    s.dropRight 2 ++ ")"

/-- Identifier start character (Python `NAME` token). -/
def isIdStart (c : Char) : Bool := c.isAlpha || c = '_'

/-- Identifier continuation character. -/
def isIdChar (c : Char) : Bool := c.isAlphanum || c = '_'

/-- Digits of a decimal numeral, most significant first. -/
def natOfDigits (ds : List Char) : Nat :=
  ds.foldl (fun a c => a * 10 + (c.toNat - 48)) 0

/-- Read a decimal numeral prefix; `none` when there is no digit. -/
def parseDigits (cs : List Char) : Option (Nat × List Char) :=
  let ds := cs.takeWhile Char.isDigit
  if ds = [] then none
  else some (natOfDigits ds, cs.dropWhile Char.isDigit)

/-- Read an optionally-signed decimal integer literal prefix. -/
def parseIntLit (cs : List Char) : Option (Int × List Char) :=
  match cs with
  | c :: rest =>
    if c = '-' then (parseDigits rest).map fun p => (-(p.1 : Int), p.2)
    else (parseDigits cs).map fun p => ((p.1 : Int), p.2)
  | [] => none

/-- Read one literal: a single-quoted string (no escape handling — the
string ends at the first quote, exactly as Python's tokenizer would read
the unescaped text) or an integer. -/
def parseLit (cs : List Char) : Option (PyVal × List Char) :=
  match cs with
  | [] => none
  | c :: rest =>
    if c = squoteChar then
      match rest.dropWhile (fun d => d ≠ squoteChar) with
      | d :: rest2 =>
        if d = squoteChar then
          some (.str (String.mk (rest.takeWhile fun d => d ≠ squoteChar)),
            rest2)
        else none
      | [] => none
    else if c.isDigit || c = '-' then
      (parseIntLit cs).map fun p => (.int p.1, p.2)
    else none

/-- Read one call-argument item: `key=literal` or a bare literal. -/
def parseItem (cs : List Char) : Option ((PyVal ⊕ String × PyVal) × List Char) :=
  match cs with
  | c :: _ =>
    if isIdStart c then
      match cs.dropWhile isIdChar with
      | d :: rest2 =>
        if d = '=' then
          (parseLit rest2).map fun p =>
            (.inr (String.mk (cs.takeWhile isIdChar), p.1), p.2)
        else none
      | [] => none
    else (parseLit cs).map fun p => (.inl p.1, p.2)
  | [] => none

/-- Read the comma-separated argument items up to the closing parenthesis,
which must end the text.  `seenKw` tracks whether a keyword argument has
already been read; a positional argument after it is a syntax error.
`fuel` bounds recursion (each step consumes at least one character). -/
def parseItemList :
    Nat → List Char → Bool → Option (List PyVal × List (String × PyVal))
  | 0, _, _ => none
  | fuel + 1, cs, seenKw =>
    match parseItem cs with
    | none => none
    | some (.inl v, rest) =>
      if seenKw then none
      else
        match rest with
        | [c] => if c = ')' then some ([v], []) else none
        | c :: rest2 =>
          if c = ',' then
            (parseItemList fuel (rest2.dropWhile fun d => d = ' ')
              false).map fun p => (v :: p.1, p.2)
          else none
        | [] => none
    | some (.inr kv, rest) =>
      match rest with
      | [c] => if c = ')' then some ([], [kv]) else none
      | c :: rest2 =>
        if c = ',' then
          (parseItemList fuel (rest2.dropWhile fun d => d = ' ')
            true).map fun p => (p.1, kv :: p.2)
        else none
      | [] => none

/-- The fragment of Python `eval` that reads a text `Name(...)` whose
arguments are integer and single-quoted string literals: returns the
class name and the parsed positional and keyword arguments, or `none`
for a `SyntaxError`. -/
def pyEvalCall (s : String) :
    Option (String × List PyVal × List (String × PyVal)) :=
  let cs := s.data
  let name := cs.takeWhile fun c => c ≠ '('
  if name ≠ [] ∧ isIdStart (name.headD ' ') ∧ name.all isIdChar then
    match cs.dropWhile fun c => c ≠ '(' with
    | c :: rest =>
      if c = '(' then
        match rest with
        | [d] => if d = ')' then some (String.mk name, [], []) else none
        | _ => (parseItemList (rest.length + 1) rest false).map
            fun p => (String.mk name, p.1, p.2)
      else none
    | [] => none
  else none

/-! ### Helper lemmas -/

theorem lookup_enumFrom {γ : Type u} (xs : List γ) :
    ∀ (k i : Nat), (List.enumFrom k xs).lookup i =
      if i < k then none else xs.get? (i - k) := by
  induction xs with
  | nil => intro k i; simp [List.enumFrom]
  | cons x xs ih =>
    intro k i
    rw [List.enumFrom_cons, List.lookup_cons]
    by_cases h : i = k
    · subst h; simp
    · have hbeq : (i == k) = false := beq_false_of_ne h
      simp only [hbeq]
      rw [ih (k + 1) i]
      by_cases h2 : i < k
      · have h3 : i < k + 1 := by omega
        simp [h2, h3]
      · have h3 : ¬i < k + 1 := by omega
        simp only [h2, h3, if_false]
        have h4 : i - k = (i - (k + 1)) + 1 := by omega
        rw [h4, List.get?_cons_succ]

theorem lookup_enum {γ : Type u} (xs : List γ) (i : Nat) :
    xs.enum.lookup i = xs.get? i := by
  have h : xs.enum = List.enumFrom 0 xs := rfl
  rw [h, lookup_enumFrom]
  simp

theorem lookup_map_vals (f : Int → Int) :
    ∀ (m : List (Nat × Int)) (i : Nat),
      (m.map fun p => (p.1, f p.2)).lookup i = (m.lookup i).map f := by
  intro m
  induction m with
  | nil => intro i; rfl
  | cons a m ih =>
    intro i
    rw [List.map_cons]
    cases a with
    | mk j x =>
      rw [List.lookup_cons, List.lookup_cons]
      by_cases h : i = j
      · subst h; simp
      · have hbeq : (i == j) = false := beq_false_of_ne h
        simp only [hbeq, ih]

theorem pySolGet_mapVals (f : Int → Int) (sol : PySol) (i : Nat) :
    (sol.mapVals f).get i = (sol.get i).map f := by
  cases sol with
  | seq xs => simp [PySol.mapVals, PySol.get, List.get?_map]
  | dmap m => simp [PySol.mapVals, PySol.get, lookup_map_vals]

theorem tryMapAll_eq_none_of_mem {A : Type u} {B : Type v} (f : A → Option B) :
    ∀ (l : List A) (a : A), a ∈ l → f a = none → tryMapAll f l = none := by
  intro l
  induction l with
  | nil => intro a h; cases h
  | cons x xs ih =>
    intro a ha hfa
    rcases List.mem_cons.mp ha with h | h
    · subst h
      simp [tryMapAll, hfa]
    · cases hfx : f x <;> simp [tryMapAll, hfx, ih a h hfa]

theorem tryMapAll_isSome_of_forall {A : Type u} {B : Type v} (f : A → Option B) :
    ∀ (l : List A), (∀ a ∈ l, (f a).isSome = true) →
      (tryMapAll f l).isSome = true := by
  intro l
  induction l with
  | nil => intro _; rfl
  | cons x xs ih =>
    intro h
    have hx := h x (List.mem_cons_self x xs)
    cases hfx : f x with
    | none => rw [hfx] at hx; cases hx
    | some b =>
      have htl := ih fun a ha => h a (List.mem_cons_of_mem x ha)
      cases htt : tryMapAll f xs with
      | none => rw [htt] at htl; cases htl
      | some bs => simp [tryMapAll, hfx, htt]

theorem isingOfQuboVal_eq_one (x : Int) : (isingOfQuboVal x = 1) ↔ x = 1 := by
  unfold isingOfQuboVal
  by_cases h : x = 0
  · subst h
    constructor <;> intro h2 <;> simp at h2
  · simp [h]

theorem enumFrom_map_vals (f : Int → Int) :
    ∀ (xs : List Int) (k : Nat),
      List.enumFrom k (xs.map f) =
        (List.enumFrom k xs).map fun p => (p.1, f p.2) := by
  intro xs
  induction xs with
  | nil => intro k; rfl
  | cons x xs ih => intro k; simp [List.enumFrom_cons, ih]

theorem vcCollect_map_vals {α : Type u} [DecidableEq α] (g : VertexCover α) :
    ∀ l : List (Nat × Int),
      tryMapAll (fun (p : Nat × Int) => g.index_to_vertex p.1)
          ((l.map fun p => (p.1, isingOfQuboVal p.2)).filter
            fun p => p.2 = 1) =
        tryMapAll (fun (p : Nat × Int) => g.index_to_vertex p.1)
          (l.filter fun p => p.2 = 1) := by
  intro l
  induction l with
  | nil => rfl
  | cons a l ih =>
    simp only [List.map_cons, List.filter_cons]
    have hd : decide (isingOfQuboVal a.2 = 1) = decide (a.2 = 1) := by
      simp [isingOfQuboVal_eq_one]
    rw [hd]
    by_cases h : a.2 = 1
    · rw [decide_eq_true h]
      simp [tryMapAll, ih]
    · rw [decide_eq_false h]
      exact ih

/-! ### Claim theorems -/

/-- C1 counterexample: with neither `to_qubo` nor `to_ising` overridden,
invoking `to_qubo` (or `to_ising`) does not produce a not-implemented
signal — even with call-depth budget 100 the mutual delegation is still
recursing (and the budget is exhausted), contradicting the claim that the
first invocation fails with a not-implemented signal. -/
theorem C1_no_notImplemented_counterexample :
    problem_to_qubo (fun u : Unit => u) (fun u => u)
        ⟨none, none⟩ 100 ≠ CallResult.notImplemented ∧
      problem_to_ising (fun u : Unit => u) (fun u => u)
        ⟨none, none⟩ 100 ≠ CallResult.notImplemented := by
  constructor <;> decide

/-- C1 (amended): if a concrete subclass overrides neither `to_qubo` nor
`to_ising`, the first invocation of either enters unbounded mutual
recursion — for every call-depth budget the computation exhausts the
budget (in CPython: the recursion limit aborts it with `RecursionError`),
and no not-implemented signal is ever produced. -/
theorem C1_mutual_recursion_diverges {Q I : Type u}
    (i2q : I → Q) (q2i : Q → I) :
    ∀ fuel : Nat,
      problem_to_qubo i2q q2i ⟨none, none⟩ fuel = CallResult.outOfFuel ∧
        problem_to_ising i2q q2i ⟨none, none⟩ fuel = CallResult.outOfFuel := by
  intro fuel
  induction fuel with
  | zero => exact ⟨rfl, rfl⟩
  | succ n ih =>
    constructor
    · rw [problem_to_qubo, ih.2]
    · rw [problem_to_ising, ih.1]

/-- C2: an attempted insertion raises a `KeyError` exactly when the key is
not a tuple or is a tuple with more than 2 distinct elements (so every
tuple with at most 2 distinct elements, repeats allowed, passes), and a
failed validation leaves the container unchanged. -/
theorem C2_key_validation {α : Type u} {M : Type v} [DecidableEq α]
    (doInsert : M → PyKey α → Int → M) (m : M) (k : PyKey α) (v : Int) :
    ((quboSetItem doInsert m k v).1.isSome = true ↔
        k = PyKey.nontuple ∨ ∃ xs, k = PyKey.tup xs ∧ 2 < xs.dedup.length) ∧
      ((quboSetItem doInsert m k v).1.isSome = true →
        (quboSetItem doInsert m k v).2 = m) := by
  have hval : check_key_valid k = false ↔
      (k = PyKey.nontuple ∨ ∃ xs, k = PyKey.tup xs ∧ 2 < xs.dedup.length) := by
    cases k with
    | nontuple => simp [check_key_valid]
    | tup xs =>
      simp only [check_key_valid]
      constructor
      · intro hf
        refine Or.inr ⟨xs, rfl, ?_⟩
        have h2 := of_decide_eq_false hf
        omega
      · rintro (h | ⟨ys, hys, hlen⟩)
        · cases h
        · cases hys
          exact decide_eq_false (by omega)
  have hsome : (quboSetItem doInsert m k v).1.isSome = true ↔
      check_key_valid k = false := by
    unfold quboSetItem
    by_cases hk : check_key_valid k <;> simp [hk]
  refine ⟨hsome.trans hval, fun h2 => ?_⟩
  have hf : check_key_valid k = false := hsome.mp h2
  simp [quboSetItem, hf]

/-- C2 witness: inserting at the 3-distinct-label key `(1, 2, 3)` raises
and performs no mutation. -/
theorem C2_key_validation_witness :
    (quboSetItem (fun (m : List (PyKey Nat × Int)) k v => (k, v) :: m)
        [] (PyKey.tup [1, 2, 3]) 5).2 = [] :=
  (C2_key_validation _ _ _ _).2 (by decide)

/-- C10: the inherited `Problem` defaults are total no-ops —
`convert_solution` is the identity, `is_solution_valid` is constantly
`True` — and therefore `solve_bruteforce` on such a subclass returns the
bruteforce oracle's assignment(s) unconverted. -/
theorem C10_default_noops {Q σ : Type u} (qubo : Q) (s : σ)
    (oracleBest : Q → Int × σ) (oracleAll : Q → Int × List σ) :
    problem_convert_solution_default s = s ∧
      problem_is_solution_valid_default s = true ∧
      problem_solve_bruteforce qubo oracleBest oracleAll
        problem_convert_solution_default false =
          SolveResult.single (oracleBest qubo).2 ∧
      problem_solve_bruteforce qubo oracleBest oracleAll
        problem_convert_solution_default true =
          SolveResult.allOf (oracleAll qubo).2 := by
  refine ⟨rfl, rfl, rfl, ?_⟩
  have hid : (problem_convert_solution_default : σ → σ) = fun s => s := rfl
  simp only [problem_solve_bruteforce, if_true, hid, List.map_id']

/-- Sanity check that `pyEvalCall` really is an inverse of `problem_str`
on well-behaved arguments: a mixed positional/keyword argument list
round-trips through the printed text. -/
theorem problem_str_eval_roundtrip_example :
    pyEvalCall (problem_str "VertexCover"
        [PyVal.int 3, PyVal.str "ab"] [("k", PyVal.int 2)]) =
      some ("VertexCover", [PyVal.int 3, PyVal.str "ab"],
        [("k", PyVal.int 2)]) := by
  rfl

/-- Sanity check for the no-argument branch of `problem_str`. -/
theorem problem_str_eval_empty_example :
    pyEvalCall (problem_str "VertexCover" [] []) =
      some ("VertexCover", [], []) := by
  rfl

/-- C3: `Problem.__str__` formats a string argument as `"'%s'" % a`
without escaping, so for the argument `"it's"` it emits the text
`VertexCover('it's')`, which is not syntactically valid Python — `eval`
of it raises `SyntaxError` instead of reconstructing an equal instance,
contradicting the round-trip asserted by the docstring
(`eval(str(s)) == s`). -/
theorem C3_quote_breaks_eval_roundtrip :
    problem_str "VertexCover" [PyVal.str ("it" ++ squote ++ "s")] [] =
        "VertexCover(" ++ squote ++ "it" ++ squote ++ "s" ++ squote ++ ")" ∧
      pyEvalCall (problem_str "VertexCover"
        [PyVal.str ("it" ++ squote ++ "s")] []) = none := by
  exact ⟨rfl, rfl⟩

/-- C4: for any `QUBO`-style instance (reverse mapping `rm`, `n` binary
variables) and any `VertexCover` instance, `convert_solution` applied to
the positional sequence `[v0, ..., v_{k-1}]` and to the equivalent mapping
`{0: v0, ..., k-1: v_{k-1}}` returns identical results. -/
theorem C4_sequence_mapping_equivalence {β α : Type u} [DecidableEq α]
    (rm : Nat → β) (n : Nat) (g : VertexCover α) (xs : List Int) :
    qubo_convert_solution rm n (PySol.seq xs) =
        qubo_convert_solution rm n (PySol.dmap xs.enum) ∧
      g.convert_solution (PySol.seq xs) =
        g.convert_solution (PySol.dmap xs.enum) := by
  constructor
  · unfold qubo_convert_solution
    have hget : ∀ i : Nat,
        (PySol.seq xs).get i = (PySol.dmap xs.enum).get i := by
      intro i
      simp [PySol.get, lookup_enum]
    have hfun : (fun (i : Nat) => ((PySol.seq xs).get i).map
          fun x => (rm i, if x = 1 then (1 : Int) else 0)) =
        fun (i : Nat) => ((PySol.dmap xs.enum).get i).map
          fun x => (rm i, if x = 1 then (1 : Int) else 0) := by
      funext i
      rw [hget]
    rw [hfun]
  · rfl

/-- C5: `convert_solution` treats value 1 as selected and both 0 and -1 as
unselected, so replacing every 0 by -1 (turning a QUBO-valued solution into
the corresponding Ising-valued one) leaves the domain-space result of both
`QUBO.convert_solution` and `VertexCover.convert_solution` unchanged. -/
theorem C5_qubo_ising_values_agree {β α : Type u} [DecidableEq α]
    (rm : Nat → β) (n : Nat) (g : VertexCover α) (sol : PySol) :
    qubo_convert_solution rm n (sol.mapVals isingOfQuboVal) =
        qubo_convert_solution rm n sol ∧
      g.convert_solution (sol.mapVals isingOfQuboVal) =
        g.convert_solution sol := by
  constructor
  · unfold qubo_convert_solution
    have hfun : (fun (i : Nat) => ((sol.mapVals isingOfQuboVal).get i).map
          fun x => (rm i, if x = 1 then (1 : Int) else 0)) =
        fun (i : Nat) => (sol.get i).map
          fun x => (rm i, if x = 1 then (1 : Int) else 0) := by
      funext i
      rw [pySolGet_mapVals, Option.map_map]
      refine congrArg (fun f => Option.map f (sol.get i)) ?_
      funext x
      simp only [Function.comp]
      by_cases hx : x = 1
      · subst hx
        rfl
      · have h1 : ¬isingOfQuboVal x = 1 := fun hc =>
          hx ((isingOfQuboVal_eq_one x).mp hc)
        rw [if_neg h1, if_neg hx]
    rw [hfun]
  · unfold VertexCover.convert_solution
    have hitems : (sol.mapVals isingOfQuboVal).items =
        sol.items.map fun p => (p.1, isingOfQuboVal p.2) := by
      cases sol with
      | seq xs =>
        simp only [PySol.mapVals, PySol.items]
        exact enumFrom_map_vals isingOfQuboVal xs 0
      | dmap m => rfl
    rw [hitems, vcCollect_map_vals]

/-- C6: `VertexCover.is_solution_valid` returns `True` iff every edge of
the instance has at least one endpoint in the covering set — for a set
input directly, and for a QUBO/Ising assignment input via the set produced
by `convert_solution`. -/
theorem C6_is_solution_valid_iff {α : Type u} [DecidableEq α]
    (g : VertexCover α) :
    (∀ s : Finset α, (g.is_solution_valid (VCSolInput.vset s) = some true ↔
        ∀ e ∈ g.edges, e.1 ∈ s ∨ e.2 ∈ s)) ∧
      (∀ (sol : PySol) (c : Finset α), g.convert_solution sol = some c →
        (g.is_solution_valid (VCSolInput.assign sol) = some true ↔
          ∀ e ∈ g.edges, e.1 ∈ c ∨ e.2 ∈ c)) := by
  constructor
  · intro s
    simp [VertexCover.is_solution_valid, List.all_eq_true]
  · intro sol c h
    simp [VertexCover.is_solution_valid, h, List.all_eq_true]

/-- C6 witness: on the 4-vertex instance from the spec, the assignment
whose selected positions decode to vertices 0 and 2 is judged valid
exactly when all four edges are covered by `{0, 2}` (which they are). -/
theorem C6_is_solution_valid_iff_witness :
    (VertexCover.mk [(0, 1), (0, 2), (2, 3), (0, 3)]).is_solution_valid
        (VCSolInput.assign (PySol.seq [0, 1, 1, 0])) = some true ↔
      ∀ e ∈ (VertexCover.mk [(0, 1), (0, 2), (2, 3), (0, 3)] :
          VertexCover Nat).edges,
        e.1 ∈ ([2, 0] : List Nat).toFinset ∨ e.2 ∈ ([2, 0] : List Nat).toFinset :=
  (C6_is_solution_valid_iff _).2 (PySol.seq [0, 1, 1, 0])
    ([2, 0] : List Nat).toFinset (by rfl)

/-- A two-class hierarchy for the `__eq__` counterexample: class 1 is a
proper subclass of class 0 (`issubclass c d` below). -/
def subclassEx : Nat → Nat → Bool :=
  fun c d => c == d || (c == 1 && d == 0)

/-- C7 counterexample: with `p` an instance of the base class 0 and `q` an
instance of its proper subclass 1, both with constructor argument 7,
`p == q` is `True` although the concrete types differ (because `__eq__`
uses `isinstance(other, type(self))`), while `q == p` is `False` — so
equality is neither "same concrete type" nor symmetric across subclass
relationships. -/
theorem C7_isinstance_counterexample :
    problem_eq subclassEx (⟨0, [7], []⟩ : PInst Nat Nat) ⟨1, [7], []⟩ =
        true ∧
      (PInst.mk 0 [7] [] : PInst Nat Nat).ptype ≠
        (PInst.mk 1 [7] [] : PInst Nat Nat).ptype ∧
      problem_eq subclassEx (⟨1, [7], []⟩ : PInst Nat Nat) ⟨0, [7], []⟩ =
        false := by
  refine ⟨?_, ?_, ?_⟩ <;> decide

/-- C7 (amended): `p == q` holds iff `q`'s concrete type is `p`'s type or
a subclass of it and the captured constructor arguments (positional tuple
and keyword mapping, compared by value) coincide; equality never depends
on derived QUBO/Ising state, and it is symmetric whenever the two
concrete types are equal (though not across proper subclass pairs). -/
theorem C7_eq_characterization {τ : Type u} {α : Type v} [DecidableEq α]
    (sub : τ → τ → Bool) (p q : PInst τ α) :
    (problem_eq sub p q = true ↔
        sub q.ptype p.ptype = true ∧ p.pargs = q.pargs ∧
          pyDictBEq p.pkwargs q.pkwargs = true) ∧
      (p.ptype = q.ptype → problem_eq sub p q = problem_eq sub q p) := by
  constructor
  · simp [problem_eq, and_assoc]
  · intro h
    unfold problem_eq
    rw [h]
    have hargs : (p.pargs == q.pargs) = (q.pargs == p.pargs) := by
      by_cases h2 : p.pargs = q.pargs
      · rw [h2]
      · rw [beq_false_of_ne h2, beq_false_of_ne (Ne.symm h2)]
    have hkw : pyDictBEq p.pkwargs q.pkwargs =
        pyDictBEq q.pkwargs p.pkwargs := by
      unfold pyDictBEq
      rw [Bool.and_comm]
    rw [hargs, hkw]

/-- C7 witness: two same-class instances with different arguments compare
symmetrically. -/
theorem C7_eq_characterization_witness :
    problem_eq subclassEx (⟨0, [7], []⟩ : PInst Nat Nat) ⟨0, [5], []⟩ =
      problem_eq subclassEx (⟨0, [5], []⟩ : PInst Nat Nat) ⟨0, [7], []⟩ :=
  (C7_eq_characterization subclassEx _ _).2 rfl

/-- C8 counterexample: `VertexCover.convert_solution` given a positional
sequence shorter than `num_binary_variables` (here length 1 versus 3
variables) does **not** fail — it silently returns a partial covering set,
contradicting the claim that every such call fails with a lookup/index
error. -/
theorem C8_short_sequence_counterexample :
    (VertexCover.mk [(0, 1), (1, 2)] : VertexCover Nat).num_binary_variables
        = 3 ∧
      (VertexCover.mk [(0, 1), (1, 2)] : VertexCover Nat).convert_solution
        (PySol.seq [1]) = some ([0] : List Nat).toFinset := by
  exact ⟨rfl, rfl⟩

/-- C8 (amended): `QUBO.convert_solution` does fail as claimed — with no
pre-validation and no partial result — on a sequence shorter than
`num_binary_variables` or a mapping missing a required key in `0..n-1`;
but `VertexCover.convert_solution` only reads the entries the input
provides, so a short (in-range) sequence silently yields a partial
covering set instead of an error. -/
theorem C8_lookup_error_behavior :
    (∀ {β : Type u} (rm : Nat → β) (n : Nat) (xs : List Int),
        xs.length < n → qubo_convert_solution rm n (PySol.seq xs) = none) ∧
      (∀ {β : Type u} (rm : Nat → β) (n k : Nat) (m : List (Nat × Int)),
        k < n → m.lookup k = none →
          qubo_convert_solution rm n (PySol.dmap m) = none) ∧
      (∀ {α : Type u} [DecidableEq α] (g : VertexCover α) (xs : List Int),
        xs.length ≤ g.num_binary_variables →
          ∃ c, g.convert_solution (PySol.seq xs) = some c) := by
  refine ⟨?_, ?_, ?_⟩
  · intro β rm n xs h
    unfold qubo_convert_solution
    exact tryMapAll_eq_none_of_mem _ _ xs.length (List.mem_range.mpr h)
      (by simp [PySol.get, List.get?_len_le])
  · intro β rm n k m hk hlk
    unfold qubo_convert_solution
    exact tryMapAll_eq_none_of_mem _ _ k (List.mem_range.mpr hk)
      (by simp [PySol.get, hlk])
  · intro α inst g xs hlen
    have hforall : ∀ p ∈ xs.enum.filter (fun p => p.2 = 1),
        ((fun (p : Nat × Int) => g.index_to_vertex p.1) p).isSome = true := by
      intro p hp
      have hpe : p ∈ xs.enum := List.mem_of_mem_filter hp
      obtain ⟨i, x⟩ := p
      have hi := (List.mem_enumFrom hpe).2.1
      unfold VertexCover.num_binary_variables at hlen
      have hlt : i < g.vertices.length := by omega
      simp only [VertexCover.index_to_vertex]
      rw [List.get?_eq_get hlt]
      rfl
    have hs := tryMapAll_isSome_of_forall _ _ hforall
    rcases Option.isSome_iff_exists.mp hs with ⟨ys, hys⟩
    exact ⟨ys.toFinset,
      by simp [VertexCover.convert_solution, PySol.items, hys]⟩

/-- C8 witness: with 3 binary variables, `QUBO.convert_solution` fails on
the length-1 sequence and on the mapping missing key 1, while
`VertexCover.convert_solution` succeeds on the short sequence. -/
theorem C8_lookup_error_behavior_witness :
    qubo_convert_solution (fun i => i) 3 (PySol.seq [1]) = none ∧
      qubo_convert_solution (fun i => i) 3
        (PySol.dmap [(0, 1), (2, 0)]) = none ∧
      ∃ c, (VertexCover.mk [(0, 1), (1, 2)] :
        VertexCover Nat).convert_solution (PySol.seq [1]) = some c :=
  ⟨C8_lookup_error_behavior.1 _ 3 [1] (by decide),
    C8_lookup_error_behavior.2.1 _ 3 1 [(0, 1), (2, 0)] (by decide)
      (by decide),
    C8_lookup_error_behavior.2.2 _ [1] (by decide)⟩

/-- The store after: construct a `VertexCover`, call `E`, then mutate the
returned set object in place (overwrite its contents with `w`). -/
def vcStoreAfterEMut {α : Type u} [DecidableEq α] (st0 : PyStore α)
    (edges w : List (α × α)) : PyStore α :=
  (vcE (vcInitStore st0 edges) (vcInitObj st0 edges)).2.writeE
    (vcE (vcInitStore st0 edges) (vcInitObj st0 edges)).1 w

/-- The store after: construct a `VertexCover`, call `V`, then mutate the
returned set object in place (overwrite its contents with `wv`). -/
def vcStoreAfterVMut {α : Type u} [DecidableEq α] (st0 : PyStore α)
    (edges : List (α × α)) (wv : List α) : PyStore α :=
  (vcV (vcInitStore st0 edges) (vcInitObj st0 edges)).2.writeV
    (vcV (vcInitStore st0 edges) (vcInitObj st0 edges)).1 wv

/-- C9: `E` and `V` return fresh copies (same contents, distinct object)
of the stored edge set and vertex set, and mutating a returned copy leaves
the instance's stored edge set, stored vertex set, and every result
computed from them (here `is_solution_valid`; the vertex-to-index maps and
`num_binary_variables` are construction-time values of the object, which
the store mutation cannot touch) unchanged. -/
theorem C9_accessors_defensive_copies {α : Type u} [DecidableEq α]
    (st0 : PyStore α) (edges w : List (α × α)) (wv : List α)
    (cover : List α) :
    ((vcE (vcInitStore st0 edges) (vcInitObj st0 edges)).2.readE
        (vcE (vcInitStore st0 edges) (vcInitObj st0 edges)).1 =
          (vcInitStore st0 edges).readE (vcInitObj st0 edges).edgesRef) ∧
      ((vcE (vcInitStore st0 edges) (vcInitObj st0 edges)).1 ≠
        (vcInitObj st0 edges).edgesRef) ∧
      ((vcStoreAfterEMut st0 edges w).readE
          (vcInitObj st0 edges).edgesRef =
        (vcInitStore st0 edges).readE (vcInitObj st0 edges).edgesRef) ∧
      ((vcStoreAfterEMut st0 edges w).readV
          (vcInitObj st0 edges).verticesRef =
        (vcInitStore st0 edges).readV (vcInitObj st0 edges).verticesRef) ∧
      (vcIsValidInStore (vcStoreAfterEMut st0 edges w)
          (vcInitObj st0 edges) cover =
        vcIsValidInStore (vcInitStore st0 edges)
          (vcInitObj st0 edges) cover) ∧
      ((vcV (vcInitStore st0 edges) (vcInitObj st0 edges)).2.readV
        (vcV (vcInitStore st0 edges) (vcInitObj st0 edges)).1 =
          (vcInitStore st0 edges).readV (vcInitObj st0 edges).verticesRef) ∧
      ((vcV (vcInitStore st0 edges) (vcInitObj st0 edges)).1 ≠
        (vcInitObj st0 edges).verticesRef) ∧
      ((vcStoreAfterVMut st0 edges wv).readE
          (vcInitObj st0 edges).edgesRef =
        (vcInitStore st0 edges).readE (vcInitObj st0 edges).edgesRef) ∧
      ((vcStoreAfterVMut st0 edges wv).readV
          (vcInitObj st0 edges).verticesRef =
        (vcInitStore st0 edges).readV (vcInitObj st0 edges).verticesRef) ∧
      (vcIsValidInStore (vcStoreAfterVMut st0 edges wv)
          (vcInitObj st0 edges) cover =
        vcIsValidInStore (vcInitStore st0 edges)
          (vcInitObj st0 edges) cover) := by
  have hobj : vcInitObj st0 edges = ⟨st0.edgeSets.length, st0.vertSets.length,
      ((edges.flatMap fun p => [p.1, p.2]).dedup.enum.map fun p => (p.2, p.1)),
      (edges.flatMap fun p => [p.1, p.2]).dedup.enum,
      (edges.flatMap fun p => [p.1, p.2]).dedup.length, edges.length⟩ := rfl
  have hst : vcInitStore st0 edges =
      ⟨st0.edgeSets ++ [edges],
        st0.vertSets ++ [(edges.flatMap fun p => [p.1, p.2]).dedup]⟩ := rfl
  have hreadE : (vcInitStore st0 edges).readE
      (vcInitObj st0 edges).edgesRef = edges := by
    rw [hobj, hst]
    simp only [PyStore.readE, List.get?_concat_length, Option.getD_some]
  have hreadV : (vcInitStore st0 edges).readV
      (vcInitObj st0 edges).verticesRef =
        (edges.flatMap fun p => [p.1, p.2]).dedup := by
    rw [hobj, hst]
    simp only [PyStore.readV, List.get?_concat_length, Option.getD_some]
  have hECopy : (vcE (vcInitStore st0 edges) (vcInitObj st0 edges)).2.readE
      (vcE (vcInitStore st0 edges) (vcInitObj st0 edges)).1 =
        (vcInitStore st0 edges).readE (vcInitObj st0 edges).edgesRef := by
    simp only [vcE, PyStore.allocE, PyStore.readE,
      List.get?_concat_length, Option.getD_some]
  have hEFresh : (vcE (vcInitStore st0 edges) (vcInitObj st0 edges)).1 ≠
      (vcInitObj st0 edges).edgesRef := by
    rw [hobj, hst]
    simp only [vcE, PyStore.allocE, List.length_append,
      List.length_singleton]
    omega
  have hEMutE : (vcStoreAfterEMut st0 edges w).readE
      (vcInitObj st0 edges).edgesRef =
        (vcInitStore st0 edges).readE (vcInitObj st0 edges).edgesRef := by
    unfold vcStoreAfterEMut
    rw [hobj, hst]
    simp only [vcE, PyStore.allocE, PyStore.writeE, PyStore.readE]
    rw [List.get?_set_ne _ _ (by simp)]
    rw [List.get?_append (by simp)]
  have hEMutV : (vcStoreAfterEMut st0 edges w).readV
      (vcInitObj st0 edges).verticesRef =
        (vcInitStore st0 edges).readV (vcInitObj st0 edges).verticesRef := by
    unfold vcStoreAfterEMut
    simp only [vcE, PyStore.allocE, PyStore.writeE, PyStore.readV]
  have hVCopy : (vcV (vcInitStore st0 edges) (vcInitObj st0 edges)).2.readV
      (vcV (vcInitStore st0 edges) (vcInitObj st0 edges)).1 =
        (vcInitStore st0 edges).readV (vcInitObj st0 edges).verticesRef := by
    simp only [vcV, PyStore.allocV, PyStore.readV,
      List.get?_concat_length, Option.getD_some]
  have hVFresh : (vcV (vcInitStore st0 edges) (vcInitObj st0 edges)).1 ≠
      (vcInitObj st0 edges).verticesRef := by
    rw [hobj, hst]
    simp only [vcV, PyStore.allocV, List.length_append,
      List.length_singleton]
    omega
  have hVMutE : (vcStoreAfterVMut st0 edges wv).readE
      (vcInitObj st0 edges).edgesRef =
        (vcInitStore st0 edges).readE (vcInitObj st0 edges).edgesRef := by
    unfold vcStoreAfterVMut
    simp only [vcV, PyStore.allocV, PyStore.writeV, PyStore.readE]
  have hVMutV : (vcStoreAfterVMut st0 edges wv).readV
      (vcInitObj st0 edges).verticesRef =
        (vcInitStore st0 edges).readV (vcInitObj st0 edges).verticesRef := by
    unfold vcStoreAfterVMut
    rw [hobj, hst]
    simp only [vcV, PyStore.allocV, PyStore.writeV, PyStore.readV]
    rw [List.get?_set_ne _ _ (by simp)]
    rw [List.get?_append (by simp)]
  refine ⟨hECopy, hEFresh, hEMutE, hEMutV, ?_, hVCopy, hVFresh, hVMutE,
    hVMutV, ?_⟩
  · unfold vcIsValidInStore
    rw [hEMutE]
  · unfold vcIsValidInStore
    rw [hVMutE]
